import Mathlib

/-
Verification of the glog-style line renderer (tracing-glog).

This file gives a shallow embedding of the renderer's core: the span-context
renderer and line-assembler fragment of Glog::format_event (src/lib.rs), the
field visitor GlogVisitor (src/lib.rs), the error source-chain renderer
ErrorSourceList (src/lib.rs), the timestamp sources UtcTime/LocalTime
(src/format.rs), and the file-path trimming of FormatProcessData (src/format.rs).

The embedding fixes the configuration in which the ansi feature is disabled:
there, the Style shim (src/lib.rs lines 100-123) returns the empty string from
prefix(), infix() and suffix(), so every style affix is "" and is elided below.

The output sink (tracing-subscriber's Writer, a fmt::Write) is modelled as a
Sink holding the text written so far plus a schedule of write outcomes: each
write! call consumes the head of the schedule (an exhausted schedule means all
further writes succeed).  fmt::Error is a unit type, modelled by FmtResult.err.
-/

namespace TracingGlog

/-- Result of a formatting operation; mirrors core::fmt::Result, whose error
type fmt::Error carries no data. -/
inductive FmtResult where
  | ok : FmtResult
  | err : FmtResult
deriving DecidableEq

/-- The output sink: accumulated output plus the schedule of outcomes for the
coming write calls (empty schedule: every write succeeds). -/
structure Sink where
  out : String
  oks : List Bool
deriving DecidableEq

/-- One write! call into the sink: on success the text is appended, on failure
nothing is appended and fmt::Error is returned. -/
def Sink.write (s : Sink) (txt : String) : Sink × FmtResult :=
  match s.oks with
  | [] => ({ s with out := s.out ++ txt }, FmtResult.ok)
  | b :: rest =>
    if b then ({ out := s.out ++ txt, oks := rest }, FmtResult.ok)
    else ({ s with oks := rest }, FmtResult.err)

/-- UtcTime::format_time (src/format.rs lines 111-124, ansi disabled):
OffsetDateTime::now_utc() is infallible and the default format description is
fixed and valid, so the call reduces to writing the rendered timestamp text
(here the parameter nowUtc) into the sink; the only failure source is the
sink write inside format_datetime. -/
def utcFormatTime (nowUtc : String) (s : Sink) : Sink × FmtResult :=
  Sink.write s nowUtc

/-- LocalTime::format_time (src/format.rs lines 175-189, ansi disabled):
OffsetDateTime::now_local() may fail to resolve the local offset, modelled by
nowLocal = none; that error is mapped to fmt::Error and returned before
anything is written.  Otherwise the rendered local timestamp is written. -/
def localFormatTime (nowLocal : Option String) (s : Sink) : Sink × FmtResult :=
  match nowLocal with
  | none => (s, FmtResult.err)
  | some t => Sink.write s t

/-- The question-mark propagation at src/lib.rs line 273: format_event calls
self.timer.format_time(&mut writer)? and only then writes the rest of the
line, so a timer failure aborts the whole line with nothing further written. -/
def lineAfterTimer (timer : Sink → Sink × FmtResult) (rest : String) (s : Sink) :
    Sink × FmtResult :=
  match timer s with
  | (s2, FmtResult.err) => (s2, FmtResult.err)
  | (s2, FmtResult.ok) => Sink.write s2 rest

/-- One span of the active chain as format_event sees it: its static name and
the cached FormattedFields string (empty when no fields were recorded). -/
structure SpanData where
  name : String
  fields : String
deriving DecidableEq

/-- The contribution test of src/lib.rs line 322: a span produces visible
output iff span names are enabled or its field string is non-empty. -/
def contributes (withSpanNames : Bool) (s : SpanData) : Bool :=
  withSpanNames || !(s.fields == (""))

/-- Modelled from the spec: the span-name-aware Display of FormatSpanFields.
src/lib.rs line 328 calls FormatSpanFields::format_fields with four arguments
(name, fields, ansi, with_span_names), but src/format.rs only contains an
older three-argument version without the with_span_names parameter; the
four-argument Display is therefore missing from src/ and is modelled from
spec section 4.4: with names enabled the span renders as its name optionally
followed by the field string in braces; with names disabled only the bare
field string is rendered (no braces, producing a flat field list). -/
def formatSpanFields (name : String) (fields : Option String)
    (withSpanNames : Bool) : String :=
  if withSpanNames then
    match fields with
    | some f => name ++ ("\x7b") ++ f ++ ("\x7d")
    | none => name
  else
    match fields with
    | some f => f
    | none => ("")

/-- The token a span writes when it contributes, with the option-wrapping of
src/lib.rs lines 316-320 applied to its field string. -/
def spanToken (withSpanNames : Bool) (s : SpanData) : String :=
  formatSpanFields s.name
    (if !(s.fields == ("")) then some s.fields else none) withSpanNames

/-- The text a chain position adds between separators: its token when it
contributes, nothing otherwise. -/
def spanSlot (withSpanNames : Bool) (s : SpanData) : String :=
  if contributes withSpanNames s then spanToken withSpanNames s else ("")

/-- The span loop of Glog::format_event, src/lib.rs lines 310-349: process the
current span (writing the lazy opening bracket before the first contributing
span), then on moving to the next span write the ", " separator whenever the
bracket is already open, and on exhausting the chain write the closing "] "
whenever the bracket was opened.  The accumulator acc is the text written so
far; writes into the in-memory line buffer cannot fail, so the loop is pure. -/
def spanLoop (withSpanNames : Bool) (span : SpanData) (iter : List SpanData)
    (wrote : Bool) (acc : String) : String :=
  let flds : Option String :=
    if !(span.fields == ("")) then some span.fields else none
  let contrib : Bool := withSpanNames || flds.isSome
  let acc2 : String :=
    if contrib then
      (if wrote then acc else acc ++ ("[")) ++
        formatSpanFields span.name flds withSpanNames
    else acc
  let wrote2 : Bool := if contrib then true else wrote
  match iter with
  | [] => if wrote2 then acc2 ++ ("] ") else acc2
  | next :: rest =>
    spanLoop withSpanNames next rest wrote2
      (if wrote2 then acc2 ++ (", ") else acc2)

/-- The span-context body of src/lib.rs lines 300-353: when a current span
exists (nonempty root-first chain) run the loop from the root with the bracket
not yet open; when there is no current span nothing is written. -/
def renderChain (withSpanNames : Bool) (chain : List SpanData) : String :=
  match chain with
  | [] => ("")
  | s :: rest => spanLoop withSpanNames s rest false ("")

/-- The whole span-context section of format_event: guarded by the
with_span_context toggle at src/lib.rs line 298. -/
def spanContextSection (withSpanContext withSpanNames : Bool)
    (chain : List SpanData) : String :=
  if withSpanContext then renderChain withSpanNames chain else ("")

/-- Join a list of tokens with the ", " separator at every boundary. -/
def joinComma : List String → String
  | [] => ("")
  | [t] => t
  | t :: ts => t ++ (", ") ++ joinComma ts

/-- Closed form of what the span loop actually produces (proved below): the
spans strictly before the first contributing one vanish without trace; from
the first contributing span to the end of the chain, every position occupies
a comma-separated slot, a non-contributing position leaving its slot empty. -/
def tailRender (withSpanNames : Bool) (chain : List SpanData) : String :=
  let rest := chain.dropWhile (fun s => !(contributes withSpanNames s))
  if rest.isEmpty then ("")
  else ("[") ++ joinComma (rest.map (spanSlot withSpanNames)) ++ ("] ")

/-- A value of std::error::Error: a display text and an optional source,
written with an explicit constructor for the some-source case so that the
chain is a finite structure. -/
inductive RError where
  | leaf (display : String)
  | cons (display : String) (src : RError)
deriving DecidableEq

/-- Display text of the error itself. -/
def RError.display : RError → String
  | RError.leaf d => d
  | RError.cons d _ => d

/-- The source method of std::error::Error: the immediate cause, if any. -/
def RError.source : RError → Option RError
  | RError.leaf _ => none
  | RError.cons _ s => some s

/-- Display texts of the error and all its transitive causes, in order,
stopping at the first error whose source is none. -/
def RError.chainDisplays : RError → List String
  | RError.leaf d => [d]
  | RError.cons d s => d :: s.chainDisplays

/-- ErrorSourceList's Display (src/lib.rs lines 534-544): a debug_list built
by walking the source chain starting from the given error itself, each entry
being that error's display text; the non-alternate debug_list renders as the
entries joined by ", " inside square brackets. -/
def errorSourceList (e : RError) : String :=
  ("[") ++ joinComma e.chainDisplays ++ ("]")

/-- Escaping of one character under Rust's Debug formatting for str (the
named escapes; other printable characters are unchanged). -/
def escapeDebugChar (c : Char) : String :=
  if c = '"' then ("\\\"")
  else if c = '\\' then ("\\\\")
  else if c = '\n' then ("\\n")
  else if c = '\t' then ("\\t")
  else if c = '\r' then ("\\r")
  else if c = (Char.ofNat 0) then ("\\0")
  else String.singleton c

/-- Rust's Debug formatting of a str: the escaped text surrounded by double
quotes. -/
def strDebug (s : String) : String :=
  ("\"") ++ String.join (s.toList.map escapeDebugChar) ++ ("\"")

/-- A recorded field value, by the Visit method the host dispatches to:
str carries the string of record_str; debug carries the Debug rendering of a
record_debug value; error carries the error of record_error. -/
inductive FieldValue where
  | str (s : String)
  | debug (d : String)
  | error (e : RError)
deriving DecidableEq

/-- Prefix test on strings, used for the "log." and "r#" name dispatch. -/
def strStarts (s pre : String) : Bool :=
  pre.toList.isPrefixOf s.toList

/-- FieldConfig of src/lib.rs lines 360-373. -/
structure FieldConfig where
  should_quote_strings : Bool
  use_whitespace_in_field : Bool
deriving DecidableEq

/-- The default FieldConfig: both toggles true (src/lib.rs lines 366-373). -/
def FieldConfig.default : FieldConfig :=
  { should_quote_strings := true, use_whitespace_in_field := true }

/-- GlogVisitor (src/lib.rs lines 417-424), ansi disabled so the style field
is elided (all its affixes are empty strings). -/
structure GlogVisitor where
  sink : Sink
  is_empty : Bool
  result : FmtResult
  config : FieldConfig
deriving DecidableEq

/-- GlogVisitor::new (src/lib.rs lines 427-435). -/
def GlogVisitor.new (sink : Sink) (config : FieldConfig) : GlogVisitor :=
  { sink := sink, is_empty := true, result := FmtResult.ok, config := config }

/-- write_padded (src/lib.rs lines 437-445): choose the padding from is_empty
(clearing it), then store the outcome of the single write! of padding plus
value into result.  is_empty is cleared even when the write fails, exactly as
in the source where the padding closure runs before the write. -/
def write_padded (st : GlogVisitor) (txt : String) : GlogVisitor :=
  let pad : String := if st.is_empty then ("") else (", ")
  let st2 := { st with is_empty := false }
  let wr := st2.sink.write (pad ++ txt)
  { st2 with sink := wr.1, result := wr.2 }

/-- write_field (src/lib.rs lines 447-466), ansi disabled: the bold affixes
are empty, leaving name, the colon (with or without the following space per
use_whitespace_in_field), and the value's Debug text. -/
def write_field (st : GlogVisitor) (name : String) (txt : String) : GlogVisitor :=
  if st.config.use_whitespace_in_field then
    write_padded st (name ++ (": ") ++ txt)
  else
    write_padded st (name ++ (":") ++ txt)

/-- record_debug (src/lib.rs lines 503-515); txt is the Debug rendering of the
value argument.  The message arm writes style.prefix() (empty here) followed
by the value; a name starting with "log." is log metadata and only assigns
Ok to result; a name starting with "r#" is rendered with the marker stripped. -/
def record_debug (st : GlogVisitor) (field : String) (txt : String) : GlogVisitor :=
  if st.result = FmtResult.err then st
  else if field = ("message") then write_padded st txt
  else if strStarts field ("log.") then { st with result := FmtResult.ok }
  else if strStarts field ("r#") then write_field st (field.drop 2) txt
  else write_field st field txt

/-- record_str (src/lib.rs lines 478-490): the message field and unquoted
strings go through as direct interpolation (the Debug text of format_args is
the text itself); with should_quote_strings the value is passed as str whose
Debug text is the quoted escaped form. -/
def record_str (st : GlogVisitor) (field : String) (value : String) : GlogVisitor :=
  if st.result = FmtResult.err then st
  else if field = ("message") then record_debug st field value
  else if st.config.should_quote_strings then record_debug st field (strDebug value)
  else record_debug st field value

/-- record_error (src/lib.rs lines 492-501): with a source present, the Debug
text handed to record_debug is the error's display text, ", ", the field
name, ".sources: " and the ErrorSourceList of the source; without a source
only the display text. -/
def record_error (st : GlogVisitor) (field : String) (value : RError) : GlogVisitor :=
  match value.source with
  | some src =>
    record_debug st field
      (value.display ++ (", ") ++ field ++ (".sources: ") ++ errorSourceList src)
  | none => record_debug st field value.display

/-- Dispatch of one visited field to the Visit method the host calls for its
value kind. -/
def visitField (st : GlogVisitor) (field : String) (v : FieldValue) : GlogVisitor :=
  match v with
  | FieldValue.str s => record_str st field s
  | FieldValue.debug d => record_debug st field d
  | FieldValue.error e => record_error st field e

/-- Visiting a sequence of fields in declaration order. -/
def visitFields (st : GlogVisitor) : List (String × FieldValue) → GlogVisitor
  | [] => st
  | (f, v) :: rest => visitFields (visitField st f v) rest

/-- finish (src/lib.rs lines 518-523): write the style suffix (empty here)
through the question-mark operator, then return the stored result. -/
def finishResult (st : GlogVisitor) : FmtResult :=
  match st.sink.write ("") with
  | (_, FmtResult.err) => FmtResult.err
  | (_, FmtResult.ok) => st.result

/-- The Debug text that reaches record_debug for a given field name and value,
following the record_str / record_error dispatch. -/
def valueText (config : FieldConfig) (field : String) (v : FieldValue) : String :=
  match v with
  | FieldValue.str s =>
    if field = ("message") then s
    else if config.should_quote_strings then strDebug s
    else s
  | FieldValue.debug d => d
  | FieldValue.error e =>
    match e.source with
    | some src =>
      e.display ++ (", ") ++ field ++ (".sources: ") ++ errorSourceList src
    | none => e.display

/-- The padding-free token one field contributes to the visitor output, none
for a dropped log-metadata field. -/
def fieldToken (config : FieldConfig) (fv : String × FieldValue) : Option String :=
  let txt := valueText config fv.1 fv.2
  if fv.1 = ("message") then some txt
  else if strStarts fv.1 ("log.") then none
  else if strStarts fv.1 ("r#") then
    some ((fv.1.drop 2) ++ (if config.use_whitespace_in_field then (": ") else (":")) ++ txt)
  else
    some (fv.1 ++ (if config.use_whitespace_in_field then (": ") else (":")) ++ txt)

/-- Padding that precedes the next token when the emptiness flag is e. -/
def padOf (e : Bool) : String :=
  if e then ("") else (", ")

/-- Tokens joined into the text appended after an output whose emptiness flag
is e: the first token takes ", " as padding exactly when output was already
written. -/
def joinInto (e : Bool) (ts : List String) : String :=
  if e then joinComma ts
  else
    match ts with
    | [] => ("")
    | t :: rest => (", ") ++ joinComma (t :: rest)

/-- Split a character list at every slash. -/
def splitSlash : List Char → List (List Char)
  | [] => [[]]
  | c :: rest =>
    if c = '/' then [] :: splitSlash rest
    else
      match splitSlash rest with
      | [] => [[c]]
      | g :: gs => (c :: g) :: gs

/-- Normal components of a path in the sense of std::path::Path::components:
the non-empty slash-separated pieces, with current-directory dots dropped. -/
def pathComponents (f : String) : List String :=
  ((splitSlash f.toList).map (fun g => String.mk g)).filter
    (fun c => !(c == ("")) && !(c == (".")))

/-- Path::file_name: the last normal component, none when there is none or
when the path ends in a parent-directory component. -/
def fileNameOf (f : String) : Option String :=
  match (pathComponents f).getLast? with
  | none => none
  | some c => if c = ("..") then none else some c

/-- Path::strip_prefix followed by to_str: succeeds when both paths agree on
absoluteness and the components of p are a prefix of those of f, yielding the
remaining components rejoined with slashes. -/
def stripPre (f p : String) : Option String :=
  if (f.toList.head? = some '/') = (p.toList.head? = some '/') &&
      (pathComponents p).isPrefixOf (pathComponents f) then
    some (String.intercalate ("/") ((pathComponents f).drop (pathComponents p).length))
  else none

/-- The file-path closure of FormatProcessData::fmt, src/format.rs lines
222-237: with_trimmed_directory takes the basename (falling back to the full
path when file_name yields none; to_str never fails on our unicode strings);
otherwise a configured strip-prefix is applied with fallback to the full
path; otherwise the path is passed through verbatim.  The strip argument
embeds the with_strip_prefix field. -/
def renderFile (with_trimmed_directory : Bool) (strip : Option String)
    (f : String) : String :=
  if with_trimmed_directory then
    match fileNameOf f with
    | some b => b
    | none => f
  else
    match strip with
    | some p =>
      match stripPre f p with
      | some r => r
      | none => f
    | none => f

/-! Helper lemmas. -/

lemma joinComma_cons (t : String) (ts : List String) :
    joinComma (t :: ts) = t ++ joinInto false ts := by
  cases ts with
  | nil => simp [joinComma, joinInto, String.append_empty]
  | cons t2 r => simp [joinComma, joinInto, String.append_assoc]

lemma joinInto_cons (e : Bool) (t : String) (ts : List String) :
    joinInto e (t :: ts) = padOf e ++ (t ++ joinInto false ts) := by
  cases e with
  | true =>
    show joinComma (t :: ts) = ("") ++ (t ++ joinInto false ts)
    rw [joinComma_cons, String.empty_append]
  | false =>
    show (", ") ++ joinComma (t :: ts) = (", ") ++ (t ++ joinInto false ts)
    rw [joinComma_cons]

lemma contrib_eq (n : Bool) (s : SpanData) :
    (n || (if !(s.fields == ("")) then some s.fields else none).isSome)
      = contributes n s := by
  cases h : s.fields == ("") <;> simp [contributes, h]

lemma spanLoop_open (n : Bool) :
    ∀ (iter : List SpanData) (span : SpanData) (acc : String),
      spanLoop n span iter true acc =
        acc ++ (joinComma ((span :: iter).map (spanSlot n)) ++ ("] ")) := by
  intro iter
  induction iter with
  | nil =>
    intro span acc
    simp only [spanLoop, contrib_eq]
    cases hc : contributes n span with
    | true =>
      simp [hc, spanSlot, spanToken, joinComma, String.append_assoc]
    | false =>
      simp [hc, spanSlot, joinComma, String.append_assoc]
  | cons next rest ih =>
    intro span acc
    simp only [spanLoop, contrib_eq]
    cases hc : contributes n span with
    | true =>
      simp [hc, ih, spanSlot, spanToken, joinComma, List.map_cons,
        String.append_assoc]
    | false =>
      simp [hc, ih, spanSlot, joinComma, List.map_cons, String.append_assoc]

lemma spanLoop_closed (n : Bool) :
    ∀ (iter : List SpanData) (span : SpanData) (acc : String),
      spanLoop n span iter false acc = acc ++ tailRender n (span :: iter) := by
  intro iter
  induction iter with
  | nil =>
    intro span acc
    simp only [spanLoop, contrib_eq]
    cases hc : contributes n span with
    | true =>
      simp [hc, tailRender, List.dropWhile, spanSlot, spanToken, joinComma,
        String.append_assoc]
    | false =>
      simp [hc, tailRender, List.dropWhile, String.append_empty]
  | cons next rest ih =>
    intro span acc
    simp only [spanLoop, contrib_eq]
    cases hc : contributes n span with
    | true =>
      simp [hc, spanLoop_open, tailRender, List.dropWhile, spanSlot, spanToken,
        joinComma, List.map_cons, String.append_assoc]
    | false =>
      simp [hc, ih, tailRender, List.dropWhile]

lemma renderChain_closed (n : Bool) (chain : List SpanData) :
    renderChain n chain = tailRender n chain := by
  cases chain with
  | nil => simp [renderChain, tailRender, List.dropWhile]
  | cons s rest =>
    simp [renderChain, spanLoop_closed, String.empty_append]

lemma err_frozen (st : GlogVisitor) (f : String) (v : FieldValue)
    (h : st.result = FmtResult.err) : visitField st f v = st := by
  cases v with
  | str s => simp [visitField, record_str, h]
  | debug d => simp [visitField, record_debug, h]
  | error ex =>
    cases ex with
    | leaf d => simp [visitField, record_error, RError.source, record_debug, h]
    | cons d s => simp [visitField, record_error, RError.source, record_debug, h]

lemma visitFields_frozen (st : GlogVisitor) (fs : List (String × FieldValue))
    (h : st.result = FmtResult.err) : visitFields st fs = st := by
  induction fs with
  | nil => rfl
  | cons fv rest ih =>
    obtain ⟨f, v⟩ := fv
    show visitFields (visitField st f v) rest = st
    rw [err_frozen st f v h]
    exact ih

lemma finish_err (st : GlogVisitor) (h : st.result = FmtResult.err) :
    finishResult st = FmtResult.err := by
  unfold finishResult
  rcases hw : st.sink.write ("") with ⟨s2, r⟩
  cases r with
  | ok => exact h
  | err => rfl

lemma record_debug_good (cfg : FieldConfig) (f txt o : String) (em : Bool) :
    record_debug ⟨⟨o, []⟩, em, FmtResult.ok, cfg⟩ f txt =
      (if f = ("message") then
        (⟨⟨o ++ (padOf em ++ txt), []⟩, false, FmtResult.ok, cfg⟩ : GlogVisitor)
      else if strStarts f ("log.") then ⟨⟨o, []⟩, em, FmtResult.ok, cfg⟩
      else if strStarts f ("r#") then
        ⟨⟨o ++ (padOf em ++ ((f.drop 2) ++
          ((if cfg.use_whitespace_in_field then (": ") else (":")) ++ txt))), []⟩,
          false, FmtResult.ok, cfg⟩
      else
        ⟨⟨o ++ (padOf em ++ (f ++
          ((if cfg.use_whitespace_in_field then (": ") else (":")) ++ txt))), []⟩,
          false, FmtResult.ok, cfg⟩) := by
  by_cases hf : f = ("message")
  · simp [record_debug, hf, write_padded, Sink.write, padOf]
  · by_cases hl : strStarts f ("log.") = true
    · simp [record_debug, hf, hl]
    · by_cases hr2 : strStarts f ("r#") = true
      · by_cases hw : cfg.use_whitespace_in_field = true <;>
          simp [record_debug, hf, hl, hr2, hw, write_field, write_padded,
            Sink.write, padOf, String.append_assoc]
      · by_cases hw : cfg.use_whitespace_in_field = true <;>
          simp [record_debug, hf, hl, hr2, hw, write_field, write_padded,
            Sink.write, padOf, String.append_assoc]

lemma visitField_good (cfg : FieldConfig) (f : String) (v : FieldValue)
    (o : String) (em : Bool) :
    visitField ⟨⟨o, []⟩, em, FmtResult.ok, cfg⟩ f v =
      (match fieldToken cfg (f, v) with
        | none => (⟨⟨o, []⟩, em, FmtResult.ok, cfg⟩ : GlogVisitor)
        | some t => ⟨⟨o ++ (padOf em ++ t), []⟩, false, FmtResult.ok, cfg⟩) := by
  cases v with
  | str s =>
    by_cases hf : f = ("message")
    · simp [visitField, record_str, hf, record_debug_good, fieldToken, valueText]
    · by_cases hq : cfg.should_quote_strings = true <;>
      by_cases hl : strStarts f ("log.") = true <;>
      by_cases hr2 : strStarts f ("r#") = true <;>
        simp [visitField, record_str, hf, hq, hl, hr2, record_debug_good,
          fieldToken, valueText, String.append_assoc]
  | debug d =>
    by_cases hf : f = ("message")
    · simp [visitField, record_debug_good, hf, fieldToken, valueText]
    · by_cases hl : strStarts f ("log.") = true <;>
      by_cases hr2 : strStarts f ("r#") = true <;>
        simp [visitField, record_debug_good, hf, hl, hr2, fieldToken, valueText,
          String.append_assoc]
  | error ex =>
    cases ex with
    | leaf d =>
      by_cases hf : f = ("message")
      · simp [visitField, record_error, RError.source, RError.display,
          record_debug_good, hf, fieldToken, valueText]
      · by_cases hl : strStarts f ("log.") = true <;>
        by_cases hr2 : strStarts f ("r#") = true <;>
          simp [visitField, record_error, RError.source, RError.display,
            record_debug_good, hf, hl, hr2, fieldToken, valueText,
            String.append_assoc]
    | cons d s =>
      by_cases hf : f = ("message")
      · simp [visitField, record_error, RError.source, RError.display,
          record_debug_good, hf, fieldToken, valueText]
      · by_cases hl : strStarts f ("log.") = true <;>
        by_cases hr2 : strStarts f ("r#") = true <;>
          simp [visitField, record_error, RError.source, RError.display,
            record_debug_good, hf, hl, hr2, fieldToken, valueText,
            String.append_assoc]

lemma visitFields_good (cfg : FieldConfig) :
    ∀ (fs : List (String × FieldValue)) (o : String) (em : Bool),
      visitFields ⟨⟨o, []⟩, em, FmtResult.ok, cfg⟩ fs =
        ⟨⟨o ++ joinInto em (fs.filterMap (fieldToken cfg)), []⟩,
          em && (fs.filterMap (fieldToken cfg)).isEmpty, FmtResult.ok, cfg⟩ := by
  intro fs
  induction fs with
  | nil =>
    intro o em
    simp [visitFields, joinInto, joinComma, String.append_empty]
  | cons fv rest ih =>
    intro o em
    obtain ⟨f, v⟩ := fv
    show visitFields (visitField ⟨⟨o, []⟩, em, FmtResult.ok, cfg⟩ f v) rest = _
    rw [visitField_good]
    rcases hft : fieldToken cfg (f, v) with _ | t
    · show visitFields ⟨⟨o, []⟩, em, FmtResult.ok, cfg⟩ rest = _
      rw [ih]
      simp [List.filterMap_cons, hft]
    · show visitFields ⟨⟨o ++ (padOf em ++ t), []⟩, false, FmtResult.ok, cfg⟩ rest = _
      rw [ih]
      simp [List.filterMap_cons, hft, joinInto_cons, String.append_assoc]

lemma fieldToken_log (cfg : FieldConfig) (f : String) (v : FieldValue)
    (h : strStarts f ("log.") = true) : fieldToken cfg (f, v) = none := by
  have hm : ¬ f = ("message") := by
    intro he
    subst he
    exact absurd h (by decide)
  simp [fieldToken, hm, h]

/-! Claim theorems. -/

/-- C1, counterexample: with span names disabled, the chain of a contributing
root span (field string "x: 1") followed by a non-contributing leaf span
(empty field string) renders as "[x: 1, ] ", with a stray separator before
the closing bracket, not as the separator-free "[x: 1] " the claim requires. -/
theorem c1_counterexample :
    renderChain false [⟨("a"), ("x: 1")⟩, ⟨("b"), ("")⟩] = ("[x: 1, ] ")
    ∧ renderChain false [⟨("a"), ("x: 1")⟩, ⟨("b"), ("")⟩] ≠ ("[x: 1] ") := by
  constructor
  · decide
  · decide

/-- C1 (amended): in the rendered span group, spans strictly before the first
contributing span are skipped entirely and leave no separator, but once the
group is open a ", " separator is emitted at every remaining chain boundary;
hence a non-contributing span that sits after the first contributing span
leaves an empty comma-separated slot, and contributing spans are joined by
exactly one ", " exactly when every non-contributing span precedes the first
contributing one.  Precisely: the render equals the lazy-opened bracket
around all chain positions from the first contributing span onward, each
position occupying one comma-separated slot that is empty for a
non-contributing span. -/
theorem c1_amended_separators (n : Bool) (chain : List SpanData) :
    renderChain n chain = tailRender n chain :=
  renderChain_closed n chain

/-- C3: the span-context group, brackets included, is absent when
with_span_context is false, and likewise when it is true but span names are
disabled and every span in the chain has an empty field string, so that no
span contributes: the render is the empty string, not an empty bracket
pair. -/
theorem c3_span_group_absent :
    (∀ (n : Bool) (chain : List SpanData), spanContextSection false n chain = (""))
    ∧ (∀ chain : List SpanData, (∀ s ∈ chain, s.fields = ("")) →
        spanContextSection true false chain = ("")) := by
  constructor
  · intro n chain
    simp [spanContextSection]
  · intro chain h
    have hdrop : chain.dropWhile (fun s => !(contributes false s)) = [] := by
      induction chain with
      | nil => simp [List.dropWhile]
      | cons s rest ih =>
        have hs : s.fields = ("") := h s (List.mem_cons_self s rest)
        have hr : ∀ x ∈ rest, x.fields = ("") :=
          fun x hx => h x (List.mem_cons_of_mem s hx)
        have ih2 := ih hr
        simp [List.dropWhile, contributes, hs, ih2]
        exact hr
    simp [spanContextSection, renderChain_closed, tailRender, hdrop]

/-- C3 witness: a concrete instance with the toggle off, and a concrete
two-span chain of empty-fielded spans with names disabled rendering to
nothing. -/
theorem c3_witness :
    spanContextSection false true [⟨("a"), ("x")⟩] = ("")
    ∧ spanContextSection true false [⟨("a"), ("")⟩, ⟨("b"), ("")⟩] = ("") :=
  ⟨c3_span_group_absent.1 true [⟨("a"), ("x")⟩],
   c3_span_group_absent.2 [⟨("a"), ("")⟩, ⟨("b"), ("")⟩] (by decide)⟩

/-- C6: when the local offset cannot be resolved, LocalTime::format_time
returns a formatting error without writing anything (no silent UTC
substitute), and the question-mark propagation makes the rest of the line
fail with nothing further written; UtcTime::format_time succeeds whenever the
underlying sink write succeeds and fails only when that write fails. -/
theorem c6_time_failure :
    (∀ s : Sink, localFormatTime none s = (s, FmtResult.err))
    ∧ (∀ (rest : String) (s : Sink),
        lineAfterTimer (localFormatTime none) rest s = (s, FmtResult.err))
    ∧ (∀ (t : String) (s : Sink), localFormatTime (some t) s = utcFormatTime t s)
    ∧ (∀ (nowUtc o : String), (utcFormatTime nowUtc ⟨o, []⟩).2 = FmtResult.ok)
    ∧ (∀ (nowUtc o : String) (ks : List Bool),
        (utcFormatTime nowUtc ⟨o, true :: ks⟩).2 = FmtResult.ok)
    ∧ (∀ (nowUtc o : String) (ks : List Bool),
        (utcFormatTime nowUtc ⟨o, false :: ks⟩).2 = FmtResult.err) := by
  refine ⟨fun s => rfl, fun rest s => rfl, fun t s => rfl, fun nowUtc o => rfl,
    fun nowUtc o ks => ?_, fun nowUtc o ks => ?_⟩
  · simp [utcFormatTime, Sink.write]
  · simp [utcFormatTime, Sink.write]

/-- C9: the file path renders verbatim in full mode; as its last component in
basename mode (both in general and on the spec's example); with the prefix
removed in strip-prefix mode on the spec's example; and unchanged when the
configured prefix does not match. -/
theorem c9_path_modes :
    (∀ f : String, renderFile false none f = f)
    ∧ (∀ f b : String, fileNameOf f = some b → renderFile true none f = b)
    ∧ renderFile true none ("/a/b/c.rs") = ("c.rs")
    ∧ renderFile false (some ("/a/")) ("/a/b/c.rs") = ("b/c.rs")
    ∧ (∀ f p : String, stripPre f p = none → renderFile false (some p) f = f)
    ∧ renderFile false none ("/a/b/c.rs") = ("/a/b/c.rs") := by
  refine ⟨fun f => rfl, ?_, by decide, by decide, ?_, by decide⟩
  · intro f b h
    simp [renderFile, h]
  · intro f p h
    simp [renderFile, h]

/-- C9 witness: the basename rule applied to the spec's example path, and the
non-matching-prefix fallback applied to a concrete mismatched prefix. -/
theorem c9_witness :
    renderFile true none ("/a/b/c.rs") = ("c.rs")
    ∧ renderFile false (some ("/x/")) ("/a/b/c.rs") = ("/a/b/c.rs") :=
  ⟨c9_path_modes.2.1 ("/a/b/c.rs") ("c.rs") (by decide),
   c9_path_modes.2.2.2.2.1 ("/a/b/c.rs") ("/x/") (by decide)⟩

/-- C2, counterexample: the visitor does not move the message field to the
front.  Visiting the field a (debug value 1) and then the field message
(string "hi") produces "a: 1, hi": the message renders at its visitation
position with a preceding separator, and the very first token is "a: 1", not
the message, contradicting the claim that message renders first regardless of
its declaration position. -/
theorem c2_counterexample :
    (visitFields (GlogVisitor.new ⟨(""), []⟩ FieldConfig.default)
        [(("a"), FieldValue.debug ("1")), (("message"), FieldValue.str ("hi"))]).sink.out
      = ("a: 1, hi")
    ∧ (visitFields (GlogVisitor.new ⟨(""), []⟩ FieldConfig.default)
        [(("a"), FieldValue.debug ("1")), (("message"), FieldValue.str ("hi"))]).sink.out
      ≠ ("hi, a: 1")
    ∧ ((("a: 1, hi") : String).take 2) ≠ ("hi") := by
  refine ⟨by decide, by decide, by decide⟩

/-- C2 (amended): the message field renders unlabeled — no "message:" label —
and its string value is interpolated directly rather than debug-quoted,
whatever the quoting configuration; it renders at its visitation position, so
it is the very first token exactly when it is the first field visited (as the
host's event macros arrange): visiting message first yields the bare value
followed by the remaining comma-joined tokens. -/
theorem c2_amended_message (q ws : Bool) (v : String)
    (fs : List (String × FieldValue)) :
    (visitFields (GlogVisitor.new ⟨(""), []⟩ ⟨q, ws⟩)
        ((("message"), FieldValue.str v) :: fs)).sink.out
      = v ++ joinInto false (fs.filterMap (fieldToken ⟨q, ws⟩)) := by
  show (visitFields ⟨⟨(""), []⟩, true, FmtResult.ok, ⟨q, ws⟩⟩ _).sink.out = _
  rw [visitFields_good]
  simp [List.filterMap_cons, fieldToken, valueText, joinInto_cons, padOf,
    String.append_assoc]

/-- C4: for a non-message string field (name not the message field and not
carrying the metadata or raw-identifier markers), enabling
should_quote_strings renders the value debug-quoted — surrounded by quote
marks with inner escapes — and disabling it renders the bare text; in
particular a field name with value "hi there" renders as the claim's two
concrete lines. -/
theorem c4_quoting_toggle :
    (∀ (q ws : Bool) (name s : String), name ≠ ("message") →
        strStarts name ("log.") = false → strStarts name ("r#") = false →
        (visitField (GlogVisitor.new ⟨(""), []⟩ ⟨q, ws⟩) name
            (FieldValue.str s)).sink.out
          = name ++ ((if ws then (": ") else (":")) ++
              (if q then strDebug s else s)))
    ∧ (visitField (GlogVisitor.new ⟨(""), []⟩ ⟨true, true⟩) ("name")
        (FieldValue.str ("hi there"))).sink.out = ("name: \"hi there\"")
    ∧ (visitField (GlogVisitor.new ⟨(""), []⟩ ⟨false, true⟩) ("name")
        (FieldValue.str ("hi there"))).sink.out = ("name: hi there") := by
  refine ⟨?_, by decide, by decide⟩
  intro q ws name s hm hl hr2
  show (visitField ⟨⟨(""), []⟩, true, FmtResult.ok, ⟨q, ws⟩⟩ name
    (FieldValue.str s)).sink.out = _
  rw [visitField_good]
  have hft : fieldToken ⟨q, ws⟩ (name, FieldValue.str s)
      = some (name ++ ((if ws then (": ") else (":")) ++
          (if q then strDebug s else s))) := by
    simp [fieldToken, valueText, hm, hl, hr2, String.append_assoc]
  rw [hft]
  show ("") ++ (padOf true ++ _) = _
  simp [padOf]

/-- C4 witness: the general statement applied at the concrete field name and
the value "hi there" under the default configuration. -/
theorem c4_witness :
    (visitField (GlogVisitor.new ⟨(""), []⟩ ⟨true, true⟩) ("name")
        (FieldValue.str ("hi there"))).sink.out
      = ("name") ++ ((if true then (": ") else (":")) ++
          (if true then strDebug ("hi there") else ("hi there"))) :=
  c4_quoting_toggle.1 true true ("name") ("hi there") (by decide) (by decide)
    (by decide)

/-- C5: an error-typed field renders the error's display text under its
label; when the error has a source, ", <field>.sources: " and the bracketed
comma-joined list of every cause — starting from the immediate source and
ending at the first cause without a further source — are appended, and with
no source only the display text appears; on the claim's two-cause example the
value renders as outer, field.sources: [mid, root]. -/
theorem c5_error_sources :
    (∀ (f : String) (ex src : RError), f ≠ ("message") →
        strStarts f ("log.") = false → strStarts f ("r#") = false →
        ex.source = some src →
        (visitField (GlogVisitor.new ⟨(""), []⟩ FieldConfig.default) f
            (FieldValue.error ex)).sink.out
          = f ++ (": ") ++ ex.display ++ (", ") ++ f ++ (".sources: ")
              ++ errorSourceList src)
    ∧ (∀ (f d : String), f ≠ ("message") → strStarts f ("log.") = false →
        strStarts f ("r#") = false →
        (visitField (GlogVisitor.new ⟨(""), []⟩ FieldConfig.default) f
            (FieldValue.error (RError.leaf d))).sink.out = f ++ (": ") ++ d)
    ∧ (∀ (f outer mid root : String), f ≠ ("message") →
        strStarts f ("log.") = false → strStarts f ("r#") = false →
        (visitField (GlogVisitor.new ⟨(""), []⟩ FieldConfig.default) f
            (FieldValue.error
              (RError.cons outer (RError.cons mid (RError.leaf root))))).sink.out
          = f ++ (": ") ++ outer ++ (", ") ++ f ++ (".sources: ") ++ ("[")
              ++ mid ++ (", ") ++ root ++ ("]")) := by
  have main : ∀ (f : String) (ex : RError), f ≠ ("message") →
      strStarts f ("log.") = false → strStarts f ("r#") = false →
      (visitField (GlogVisitor.new ⟨(""), []⟩ FieldConfig.default) f
          (FieldValue.error ex)).sink.out
        = f ++ ((": ") ++ valueText FieldConfig.default f (FieldValue.error ex)) := by
    intro f ex hm hl hr2
    show (visitField ⟨⟨(""), []⟩, true, FmtResult.ok, FieldConfig.default⟩ f
      (FieldValue.error ex)).sink.out = _
    rw [visitField_good]
    have hft : fieldToken FieldConfig.default (f, FieldValue.error ex)
        = some (f ++ ((": ") ++ valueText FieldConfig.default f (FieldValue.error ex))) := by
      simp [fieldToken, hm, hl, hr2, FieldConfig.default, String.append_assoc]
    rw [hft]
    show ("") ++ (padOf true ++ _) = _
    simp [padOf]
  refine ⟨?_, ?_, ?_⟩
  · intro f ex src hm hl hr2 hsrc
    rw [main f ex hm hl hr2]
    cases ex with
    | leaf d => simp [RError.source] at hsrc
    | cons d s =>
      simp only [RError.source, Option.some.injEq] at hsrc
      subst hsrc
      simp [valueText, RError.source, RError.display, String.append_assoc]
  · intro f d hm hl hr2
    rw [main f (RError.leaf d) hm hl hr2]
    simp [valueText, RError.source, RError.display, String.append_assoc]
  · intro f outer mid root hm hl hr2
    rw [main f (RError.cons outer (RError.cons mid (RError.leaf root))) hm hl hr2]
    have hlit : ∀ x : String, (".sources: ") ++ (("[") ++ x) = (".sources: [") ++ x := by
      intro x
      rw [← String.append_assoc]
      have hm2 : ((".sources: ") : String) ++ ("[") = (".sources: [") := by decide
      rw [hm2]
    simp [valueText, RError.source, RError.display, errorSourceList,
      RError.chainDisplays, joinComma, String.append_assoc]
    rw [hlit]

/-- C5 witness: the two-cause part applied at a concrete field named e with
the chain outer, mid, root, and the no-source part at a concrete display
text. -/
theorem c5_witness :
    (visitField (GlogVisitor.new ⟨(""), []⟩ FieldConfig.default) ("e")
        (FieldValue.error
          (RError.cons ("outer") (RError.cons ("mid") (RError.leaf ("root")))))).sink.out
      = ("e") ++ (": ") ++ ("outer") ++ (", ") ++ ("e") ++ (".sources: ")
          ++ ("[") ++ ("mid") ++ (", ") ++ ("root") ++ ("]")
    ∧ (visitField (GlogVisitor.new ⟨(""), []⟩ FieldConfig.default) ("e2")
        (FieldValue.error (RError.leaf ("boom")))).sink.out
      = ("e2") ++ (": ") ++ ("boom") :=
  ⟨c5_error_sources.2.2 ("e") ("outer") ("mid") ("root") (by decide) (by decide)
    (by decide),
   c5_error_sources.2.1 ("e2") ("boom") (by decide) (by decide) (by decide)⟩

/-- C7: over any field sequence visited with an all-succeeding sink, the
accumulated output is exactly the comma-join of the tokens of the non-dropped
fields — the first written token has no leading separator and each later one
is preceded by exactly ", " — and splicing a field whose name carries the
internal-metadata marker "log." into any position of a sequence leaves the
output identical to the sequence without it: a dropped field neither consumes
nor leaves a separator slot. -/
theorem c7_separator_discipline :
    (∀ (cfg : FieldConfig) (fs : List (String × FieldValue)),
        (visitFields (GlogVisitor.new ⟨(""), []⟩ cfg) fs).sink.out
          = joinComma (fs.filterMap (fieldToken cfg)))
    ∧ (∀ (cfg : FieldConfig) (fs1 fs2 : List (String × FieldValue))
          (f : String) (v : FieldValue), strStarts f ("log.") = true →
        (visitFields (GlogVisitor.new ⟨(""), []⟩ cfg)
            (fs1 ++ (f, v) :: fs2)).sink.out
          = (visitFields (GlogVisitor.new ⟨(""), []⟩ cfg) (fs1 ++ fs2)).sink.out) := by
  have base : ∀ (cfg : FieldConfig) (fs : List (String × FieldValue)),
      (visitFields (GlogVisitor.new ⟨(""), []⟩ cfg) fs).sink.out
        = joinComma (fs.filterMap (fieldToken cfg)) := by
    intro cfg fs
    show (visitFields ⟨⟨(""), []⟩, true, FmtResult.ok, cfg⟩ fs).sink.out = _
    rw [visitFields_good]
    show ("") ++ joinInto true (fs.filterMap (fieldToken cfg)) = _
    rw [String.empty_append]
    rfl
  refine ⟨base, ?_⟩
  intro cfg fs1 fs2 f v h
  rw [base, base]
  simp [List.filterMap_append, List.filterMap_cons, fieldToken_log cfg f v h]

/-- C7 witness: the join law applied to a concrete three-field sequence, and
the log-splice law applied with a concrete metadata field between two plain
fields. -/
theorem c7_witness :
    (visitFields (GlogVisitor.new ⟨(""), []⟩ FieldConfig.default)
        [(("a"), FieldValue.debug ("1")), (("b"), FieldValue.debug ("2"))]).sink.out
      = joinComma ([(("a"), FieldValue.debug ("1")), (("b"), FieldValue.debug ("2"))].filterMap
          (fieldToken FieldConfig.default))
    ∧ (visitFields (GlogVisitor.new ⟨(""), []⟩ FieldConfig.default)
        ([(("a"), FieldValue.debug ("1"))] ++
          (("log.target"), FieldValue.debug ("t")) :: [(("b"), FieldValue.debug ("2"))])).sink.out
      = (visitFields (GlogVisitor.new ⟨(""), []⟩ FieldConfig.default)
          ([(("a"), FieldValue.debug ("1"))] ++ [(("b"), FieldValue.debug ("2"))])).sink.out :=
  ⟨c7_separator_discipline.1 FieldConfig.default
      [(("a"), FieldValue.debug ("1")), (("b"), FieldValue.debug ("2"))],
   c7_separator_discipline.2 FieldConfig.default
      [(("a"), FieldValue.debug ("1"))] [(("b"), FieldValue.debug ("2"))]
      ("log.target") (FieldValue.debug ("t")) (by decide)⟩

/-- C8: the first write failure wins.  When the sink's next write is bound to
fail, the write_padded performing it stores the error in the visitor result;
once the stored result is the error, visiting any further field sequence
leaves the visitor — output included — completely unchanged, and finishing
the visitor reports the error. -/
theorem c8_first_error_wins :
    (∀ (st : GlogVisitor) (txt : String), st.sink.oks.head? = some false →
        (write_padded st txt).result = FmtResult.err)
    ∧ (∀ (st : GlogVisitor) (fs : List (String × FieldValue)),
        st.result = FmtResult.err → visitFields st fs = st)
    ∧ (∀ st : GlogVisitor, st.result = FmtResult.err →
        finishResult st = FmtResult.err) := by
  refine ⟨?_, fun st fs h => visitFields_frozen st fs h,
    fun st h => finish_err st h⟩
  intro st txt h
  rcases hks : st.sink.oks with _ | ⟨b, rest⟩
  · rw [hks] at h
    simp at h
  · rw [hks] at h
    simp only [List.head?_cons, Option.some.injEq] at h
    subst h
    simp [write_padded, Sink.write, hks]

/-- C8 witness: a failing first write latches the error on a concrete
visitor; a concrete visitor in the error state absorbs a further field
without change and finishes with the error. -/
theorem c8_witness :
    (write_padded ⟨⟨(""), [false]⟩, true, FmtResult.ok, FieldConfig.default⟩
        ("x")).result = FmtResult.err
    ∧ visitFields ⟨⟨("a: 1"), []⟩, false, FmtResult.err, FieldConfig.default⟩
        [(("b"), FieldValue.str ("y"))]
        = ⟨⟨("a: 1"), []⟩, false, FmtResult.err, FieldConfig.default⟩
    ∧ finishResult ⟨⟨("a: 1"), []⟩, false, FmtResult.err, FieldConfig.default⟩
        = FmtResult.err :=
  ⟨c8_first_error_wins.1 ⟨⟨(""), [false]⟩, true, FmtResult.ok, FieldConfig.default⟩
      ("x") (by decide),
   c8_first_error_wins.2.1 ⟨⟨("a: 1"), []⟩, false, FmtResult.err, FieldConfig.default⟩
      [(("b"), FieldValue.str ("y"))] (by decide),
   c8_first_error_wins.2.2 ⟨⟨("a: 1"), []⟩, false, FmtResult.err, FieldConfig.default⟩
      (by decide)⟩

/-- C10: the visitor result is error-latched.  Once the stored result is the
error, any later visited field — through record_str, record_debug or
record_error, and in particular a field with the "log." metadata marker whose
handling arm assigns Ok — leaves the visitor state, output and stored result
alike, unchanged: the early return on an existing error fires before the
branch that assigns Ok. -/
theorem c10_error_latched (st : GlogVisitor) (f : String) (v : FieldValue)
    (h : st.result = FmtResult.err) : visitField st f v = st :=
  err_frozen st f v h

/-- C10 witness: a concrete errored visitor visiting a log-prefixed metadata
field afterwards is unchanged, so the stored result stays the error. -/
theorem c10_witness :
    visitField ⟨⟨("x: 1"), []⟩, false, FmtResult.err, FieldConfig.default⟩
        ("log.target") (FieldValue.str ("app"))
      = ⟨⟨("x: 1"), []⟩, false, FmtResult.err, FieldConfig.default⟩ :=
  c10_error_latched ⟨⟨("x: 1"), []⟩, false, FmtResult.err, FieldConfig.default⟩
    ("log.target") (FieldValue.str ("app")) (by decide)

end TracingGlog
